import Mathlib

/-!
Shallow embedding of the quit-smoking-bot core logic and proofs about it.

The repository has two variants of the core logic:
* a legacy monolith `src/bot.py` (module-level functions), and
* a modular package `src/src/*.py` (`utils.py`, `quotes.py`, `users.py`,
  `status.py`, `bot.py`, `config.py`).

Functions are translated directly from the Python source.  Python `datetime`
values are modelled by `PyDateTime` (year, month, day, hour, minute — the
fields the code reads); machine integers are `Int`; dictionaries are
association lists; `random.choice` is modelled by an explicit index
parameter, and the `IndexError` it raises on an empty sequence is modelled
by `Option.none`.
-/

/-- Calendar date-time as used by the code: Python `datetime` restricted to
the fields the program reads (year, month, day, hour, minute). -/
structure PyDateTime where
  year : Int
  month : Int
  day : Int
  hour : Int
  minute : Int
deriving Repr, DecidableEq

/-- Python `calendar`-style leap-year rule, which drives
`datetime`'s month lengths. -/
def isLeapYear (y : Int) : Bool :=
  (y % 4 == 0 && y % 100 != 0) || (y % 400 == 0)

/-- Number of days in month `m` of year `y` (Python `datetime` month lengths). -/
def daysInMonth (y m : Int) : Int :=
  if m = 2 then (if isLeapYear y then 29 else 28)
  else if m = 4 ∨ m = 6 ∨ m = 9 ∨ m = 11 then 30
  else 31

/-- Validity of a `PyDateTime`, as enforced by Python's `datetime`
constructor (hour/minute ranges included). -/
def validDate (d : PyDateTime) : Prop :=
  1 ≤ d.month ∧ d.month ≤ 12 ∧ 1 ≤ d.day ∧ d.day ≤ daysInMonth d.year d.month ∧
  0 ≤ d.hour ∧ d.hour ≤ 23 ∧ 0 ≤ d.minute ∧ d.minute ≤ 59

instance (d : PyDateTime) : Decidable (validDate d) := by
  unfold validDate; infer_instance

/-- Python `datetime` comparison `a < b` (lexicographic on the modelled fields). -/
def dtLt (a b : PyDateTime) : Prop :=
  a.year < b.year ∨ (a.year = b.year ∧
    (a.month < b.month ∨ (a.month = b.month ∧
      (a.day < b.day ∨ (a.day = b.day ∧
        (a.hour < b.hour ∨ (a.hour = b.hour ∧ a.minute < b.minute)))))))

instance (a b : PyDateTime) : Decidable (dtLt a b) := by
  unfold dtLt; infer_instance

/-- Python `datetime` comparison `a ≤ b`. -/
def dtLe (a b : PyDateTime) : Prop :=
  dtLt a b ∨ a = b

instance (a b : PyDateTime) : Decidable (dtLe a b) := by
  unfold dtLe; infer_instance

/-- Day count of the month immediately preceding `d`'s month: in the source,
`(end_date.replace(day=1) - datetime.timedelta(days=1)).day`. -/
def prevMonthDays (d : PyDateTime) : Int :=
  if d.month = 1 then daysInMonth (d.year - 1) 12
  else daysInMonth d.year (d.month - 1)

/-- Translation of `calculate_period` (identical in `src/src/utils.py`
lines 41-62 and `src/bot.py` lines 122-140): naive field-wise subtraction
with a day borrow from the month preceding `end_date`'s month and a month
borrow from the years. -/
def calculate_period (start_date end_date : PyDateTime) : Int × Int × Int :=
  let years := end_date.year - start_date.year
  let months := end_date.month - start_date.month
  let days := end_date.day - start_date.day
  let p := if days < 0 then (months - 1, days + prevMonthDays end_date)
           else (months, days)
  let q := if p.1 < 0 then (years - 1, p.1 + 12) else (years, p.1)
  (q.1, q.2, p.2)

/-- Configured constant `MONTHLY_AMOUNT` from `src/src/config.py`. -/
def MONTHLY_AMOUNT : Int := 5000

/-- Configured constant `PRIZE_FUND_INCREASE` from `src/src/config.py`. -/
def PRIZE_FUND_INCREASE : Int := 5000

/-- Configured constant `MAX_PRIZE_FUND` from `src/src/config.py`. -/
def MAX_PRIZE_FUND : Int := 100000

/-- Translation of the modular `calculate_prize_fund` from
`src/src/utils.py` lines 65-75: linear growth capped at `MAX_PRIZE_FUND`. -/
def calculate_prize_fund (months : Int) : Int :=
  if months < 0 then 0
  else min (MONTHLY_AMOUNT + months * PRIZE_FUND_INCREASE) MAX_PRIZE_FUND

namespace LegacyBot

/-- Translation of the legacy `calculate_prize_fund` from `src/bot.py`
lines 142-158: `base_amount * (months + 1)` with `base_amount = 5000`,
no cap. -/
def calculate_prize_fund (months : Int) : Int :=
  if months < 0 then 0
  else 5000 * (months + 1)

end LegacyBot

/-- Constant `NOTIFICATION_DAY` (both `src/src/config.py` and `src/bot.py`). -/
def NOTIFICATION_DAY : Int := 23

/-- Constant `NOTIFICATION_HOUR`. -/
def NOTIFICATION_HOUR : Int := 21

/-- Constant `NOTIFICATION_MINUTE`. -/
def NOTIFICATION_MINUTE : Int := 58

/-- Constant `START_DATE`: January 23, 2025 at 21:58. -/
def START_DATE : PyDateTime := ⟨2025, 1, 23, 21, 58⟩

/-- Translation of the `next_date` computation inside `get_status_info`
(`src/src/status.py` lines 56-84, identical in `src/bot.py` lines 194-204):
if `now.day ≤ NOTIFICATION_DAY` take this month's 23rd at 21:58, else next
month's, with December rolling over to January of the next year. -/
def nextIncreaseDate (now : PyDateTime) : PyDateTime :=
  if now.day ≤ NOTIFICATION_DAY then
    { now with day := NOTIFICATION_DAY, hour := NOTIFICATION_HOUR,
               minute := NOTIFICATION_MINUTE }
  else if now.month = 12 then
    { year := now.year + 1, month := 1, day := NOTIFICATION_DAY,
      hour := NOTIFICATION_HOUR, minute := NOTIFICATION_MINUTE }
  else
    { now with month := now.month + 1, day := NOTIFICATION_DAY,
               hour := NOTIFICATION_HOUR, minute := NOTIFICATION_MINUTE }

/-- Loop body of `_load_quotes` / `load_quotes`: starting from `acc` (a copy
of `quotes`) at index `i = len(quotes)`, append `quotes[i % len(quotes)]`
for `i` up to 239 (`for i in range(len(quotes), 240)`). -/
def extendQuotesFrom (quotes : List String) (i : Nat) (acc : List String) :
    List String :=
  if i < 240 then
    extendQuotesFrom quotes (i + 1) (acc ++ [quotes.getD (i % quotes.length) ""])
  else acc
termination_by 240 - i

/-- Translation of `QuotesManager._load_quotes` (`src/src/quotes.py` lines
15-25), character-identical to the legacy `load_quotes` (`src/bot.py` lines
69-79): a nonempty list shorter than 240 entries is cyclically extended to
length 240; otherwise the list is returned as-is. -/
def load_quotes (quotes : List String) : List String :=
  if quotes ≠ [] ∧ quotes.length < 240 then
    extendQuotesFrom quotes quotes.length quotes
  else quotes

/-- Hard-coded fallback quote (same string in both variants). -/
def FALLBACK_QUOTE : String :=
  "Each day without cigarettes is a victory over yourself. - Mark Twain"

/-- Translation of the modular `QuotesManager.get_random_quote`
(`src/src/quotes.py` lines 27-35).  `random.choice(self.quotes)` is modelled
by the explicit index `choice % quotes.length`; `user_id` is accepted and
ignored exactly as in the source. -/
def get_random_quote (quotes : List String) (user_id : String) (choice : Nat) :
    String :=
  if quotes = [] then FALLBACK_QUOTE
  else quotes.getD (choice % quotes.length) ""

/-- Python dict lookup `d.get(k, "")` on an association-list model. -/
def dictGet (d : List (String × String)) (k : String) : String :=
  match d.find? (fun p => p.1 == k) with
  | some p => p.2
  | none => ""

/-- Python dict update `d[k] = v` on an association-list model. -/
def dictSet (d : List (String × String)) (k v : String) :
    List (String × String) :=
  (k, v) :: d.filter (fun p => p.1 != k)

namespace LegacyBot

/-- Translation of the legacy `get_random_quote` (`src/bot.py` lines 81-99):
with at most one quote loaded, return the fallback; otherwise filter out the
requester's last used quote, pick one of the remaining quotes
(`random.choice(available_quotes)`, modelled by index `choice`), and record
it as the requester's last used quote.  `random.choice` on an empty list
raises an uncaught `IndexError`, modelled by `none`. -/
def get_random_quote (QUOTES : List String) (lastUsed : List (String × String))
    (user_id : String) (choice : Nat) :
    Option (String × List (String × String)) :=
  if QUOTES.length ≤ 1 then some (FALLBACK_QUOTE, lastUsed)
  else
    let last_quote := dictGet lastUsed user_id
    let available_quotes := QUOTES.filter (fun q => q ≠ last_quote)
    if available_quotes = [] then none
    else
      let new_quote := available_quotes.getD (choice % available_quotes.length) ""
      some (new_quote, dictSet lastUsed user_id new_quote)

end LegacyBot

/-- State of `UserManager` for the user list: the in-memory list, the
persisted copy (`save_json_file(USERS_FILE, self.users)`), and the number of
storage writes performed. -/
structure UserRegistry where
  users : List Int
  storage : List Int
  writes : Nat
deriving Repr, DecidableEq

/-- Translation of `UserManager.add_user` (`src/src/users.py` lines 34-41):
if the id is not registered, append it, persist the list (one storage
write), and return `true`; otherwise return `false` without touching
anything. -/
def add_user (s : UserRegistry) (user_id : Int) : Bool × UserRegistry :=
  if user_id ∉ s.users then
    let users' := s.users ++ [user_id]
    (true, { users := users', storage := users', writes := s.writes + 1 })
  else (false, s)

/-- State of the admin side of `UserManager`: the in-memory admin list and
its persisted copy. -/
structure AdminRegistry where
  admins : List Int
  storage : List Int
deriving Repr, DecidableEq

/-- Modelled from the spec: `UserManager.remove_admin` is not present in
`src/src/users.py` (only its caller `QuitSmokingBot.remove_admin` in
`src/src/bot.py` lines 283-351 and mocked unit tests exist in the
repository).  Per the spec: if `id` is not in the admin set, return `false`
with no mutation; if removing `id` would make the admin set empty, return
`false` with no mutation ("cannot remove the last admin"); otherwise remove
`id`, persist the admin set, and return `true`. -/
def remove_admin (s : AdminRegistry) (admin_id : Int) : Bool × AdminRegistry :=
  if admin_id ∈ s.admins then
    let remaining := s.admins.filter (fun x => x ≠ admin_id)
    if remaining = [] then (false, s)
    else (true, { admins := remaining, storage := remaining })
  else (false, s)

/-- Outcome of one `bot.send_message` call: success, or an exception that
the dispatch loop catches and logs. -/
inductive SendResult
  | ok
  | failed
deriving Repr, DecidableEq

/-- Translation of `QuitSmokingBot._send_notifications_to_users`
(`src/src/bot.py` lines 79-95): iterate over the registered users and call
`bot.send_message(chat_id=user_id, text=status_info)` for each; an
exception from a send (`SendResult.failed`) is caught and the loop
continues.  The returned list records each attempted send and its outcome. -/
def send_notifications_to_users (users : List Int)
    (send : Int → String → SendResult) (status_info : String) :
    List (Int × SendResult) :=
  users.map (fun user_id => (user_id, send user_id status_info))

/-- Translation of `QuitSmokingBot.send_monthly_notification`
(`src/src/bot.py` lines 97-108): compute the status text once and dispatch
it to all registered users. -/
def send_monthly_notification (statusText : String) (users : List Int)
    (send : Int → String → SendResult) : List (Int × SendResult) :=
  send_notifications_to_users users send statusText

/-- Send function of the dispatch test scenario: delivery fails for chat
id 2 and succeeds for every other id. -/
def sendFailsFor2 : Int → String → SendResult :=
  fun user_id _ => if user_id = 2 then SendResult.failed else SendResult.ok

/-! Helper lemmas shared by the claim theorems. -/

/-- Indexing a mapped user list: the i-th attempted send is the send
function applied to the i-th user. -/
theorem sendmap_getD (users : List Int) (f : Int → Int × SendResult) (i : Nat)
    (hi : i < users.length) :
    (users.map f).getD i (0, SendResult.ok) = f (users.getD i 0) := by
  have hi' : i < (users.map f).length := by simpa using hi
  rw [List.getD_eq_getElem _ _ hi', List.getD_eq_getElem _ _ hi,
    List.getElem_map]

/-- Closed form of the quote-extension loop: running from index `i` with
accumulator `acc` appends the cyclic picks for indices `i` to 239. -/
theorem extendQuotesFrom_eq (quotes : List String) :
    ∀ (k i : Nat) (acc : List String), i + k = 240 →
      extendQuotesFrom quotes i acc =
        acc ++ (List.range' i k).map
          (fun j => quotes.getD (j % quotes.length) "") := by
  intro k
  induction k with
  | zero =>
    intro i acc h
    rw [extendQuotesFrom, if_neg (by omega)]
    simp
  | succ n ih =>
    intro i acc h
    rw [extendQuotesFrom, if_pos (by omega), ih (i + 1) _ (by omega),
      List.range'_succ]
    simp

/-- Closed form of `load_quotes` on a nonempty list shorter than 240. -/
theorem load_quotes_short (raw : List String) (h1 : raw ≠ [])
    (h2 : raw.length < 240) :
    load_quotes raw =
      raw ++ (List.range' raw.length (240 - raw.length)).map
        (fun j => raw.getD (j % raw.length) "") := by
  unfold load_quotes
  rw [if_pos ⟨h1, h2⟩]
  have h := extendQuotesFrom_eq raw (240 - raw.length) raw.length raw (by omega)
  exact h

/-- A padded quote list has exactly 240 entries. -/
theorem load_quotes_short_length (raw : List String) (h1 : raw ≠ [])
    (h2 : raw.length < 240) : (load_quotes raw).length = 240 := by
  rw [load_quotes_short raw h1 h2]
  simp [List.length_range']
  omega

/-- Entry `i` of a padded quote list is `raw[i % len(raw)]`. -/
theorem load_quotes_short_getD (raw : List String) (h1 : raw ≠ [])
    (h2 : raw.length < 240) (i : Nat) (hi : i < 240) :
    (load_quotes raw).getD i "" = raw.getD (i % raw.length) "" := by
  rw [load_quotes_short raw h1 h2]
  rcases Nat.lt_or_ge i raw.length with h | h
  · rw [List.getD_append _ _ _ _ h, Nat.mod_eq_of_lt h]
  · rw [List.getD_append_right _ _ _ _ h]
    have hlen : (List.range' raw.length (240 - raw.length)).length =
        240 - raw.length := List.length_range' _ _ _
    have hlt : i - raw.length <
        ((List.range' raw.length (240 - raw.length)).map
          (fun j => raw.getD (j % raw.length) "")).length := by
      simp [hlen]
      omega
    rw [List.getD_eq_getElem _ _ hlt, List.getElem_map, List.getElem_range']
    have harith : raw.length + 1 * (i - raw.length) = i := by omega
    rw [harith]

/-- An in-range `getD` pick is a member of the list. -/
theorem getD_mem_of_lt (l : List String) (i : Nat) (hi : i < l.length) :
    l.getD i "" ∈ l := by
  rw [List.getD_eq_getElem _ _ hi]
  exact List.getElem_mem hi

/-- If every raw quote equals `q`, every entry of the padded list equals
`q`. -/
theorem load_quotes_all_eq (raw : List String) (q : String)
    (hall : ∀ s ∈ raw, s = q) (h1 : raw ≠ []) (h2 : raw.length < 240) :
    ∀ s ∈ load_quotes raw, s = q := by
  intro s hs
  rw [load_quotes_short raw h1 h2] at hs
  rcases List.mem_append.mp hs with h | h
  · exact hall s h
  · obtain ⟨j, hj, rfl⟩ := List.mem_map.mp h
    have hL : 0 < raw.length := List.length_pos.mpr h1
    exact hall _ (getD_mem_of_lt raw _ (Nat.mod_lt _ hL))

/-- Every month length lies between 28 and 31. -/
theorem daysInMonth_bounds (y m : Int) :
    28 ≤ daysInMonth y m ∧ daysInMonth y m ≤ 31 := by
  unfold daysInMonth
  split_ifs <;> omega

/-- The month preceding any date's month has between 28 and 31 days. -/
theorem prevMonthDays_bounds (d : PyDateTime) :
    28 ≤ prevMonthDays d ∧ prevMonthDays d ≤ 31 := by
  unfold prevMonthDays
  split_ifs <;> exact daysInMonth_bounds _ _

/-! Theorems settling the claims. -/

/-- C2 counterexample: for start = 2025-01-31 12:00 and end = 2025-03-01
12:00 (both valid, end after start), `calculate_period` returns
(0, 1, -2), so the days component is negative, contradicting the claimed
`days ≥ 0`. -/
theorem calculate_period_days_counterexample :
    validDate ⟨2025, 1, 31, 12, 0⟩ ∧ validDate ⟨2025, 3, 1, 12, 0⟩ ∧
    dtLe ⟨2025, 1, 31, 12, 0⟩ ⟨2025, 3, 1, 12, 0⟩ ∧
    calculate_period ⟨2025, 1, 31, 12, 0⟩ ⟨2025, 3, 1, 12, 0⟩ = (0, 1, -2) ∧
    ¬ (0 ≤ (calculate_period ⟨2025, 1, 31, 12, 0⟩ ⟨2025, 3, 1, 12, 0⟩).2.2) := by
  decide

/-- C2 (amended): for every pair of valid date-times with end ≥ start,
`calculate_period` returns months ∈ [0,11] and days ≥ -2; the days
component can be negative (as low as -2) when the start day exceeds the
length of the month preceding the end's month, so the claimed `days ≥ 0`
does not hold in general. -/
theorem calculate_period_range (s e : PyDateTime)
    (hs : validDate s) (he : validDate e) (hle : dtLe s e) :
    0 ≤ (calculate_period s e).2.1 ∧ (calculate_period s e).2.1 ≤ 11 ∧
    -2 ≤ (calculate_period s e).2.2 := by
  obtain ⟨hs1, hs2, hs3, hs4, -⟩ := hs
  obtain ⟨he1, he2, he3, he4, -⟩ := he
  have hb1 := daysInMonth_bounds s.year s.month
  have hb2 := daysInMonth_bounds e.year e.month
  have hb3 := prevMonthDays_bounds e
  dsimp [calculate_period]
  split_ifs <;> simp_all <;> omega

/-- C2 witness: the range theorem applied at start = START_DATE and
end = 2025-04-23 21:58. -/
theorem calculate_period_range_witness :
    validDate START_DATE ∧ validDate ⟨2025, 4, 23, 21, 58⟩ ∧
    dtLe START_DATE ⟨2025, 4, 23, 21, 58⟩ ∧
    (0 ≤ (calculate_period START_DATE ⟨2025, 4, 23, 21, 58⟩).2.1 ∧
     (calculate_period START_DATE ⟨2025, 4, 23, 21, 58⟩).2.1 ≤ 11 ∧
     -2 ≤ (calculate_period START_DATE ⟨2025, 4, 23, 21, 58⟩).2.2) :=
  ⟨by decide, by decide, by decide,
   calculate_period_range START_DATE ⟨2025, 4, 23, 21, 58⟩
     (by decide) (by decide) (by decide)⟩

/-- C3: the legacy `calculate_prize_fund` (`src/bot.py`) returns 0 for a
negative month count, and `5000 * (months + 1)` otherwise, so month index 0
yields one full base amount and each subsequent month index adds one more
base amount. -/
theorem prize_fund_legacy_closed_form (m : Int) :
    (m < 0 → LegacyBot.calculate_prize_fund m = 0) ∧
    (0 ≤ m → LegacyBot.calculate_prize_fund m = 5000 * (m + 1)) ∧
    (0 ≤ m → LegacyBot.calculate_prize_fund (m + 1) =
      LegacyBot.calculate_prize_fund m + 5000) := by
  unfold LegacyBot.calculate_prize_fund
  refine ⟨fun h => ?_, fun h => ?_, fun h => ?_⟩ <;> split_ifs <;> omega

/-- C3 witness: the closed form applied at month index 3
(prize fund 20000). -/
theorem prize_fund_legacy_closed_form_witness :
    0 ≤ (3 : Int) ∧ LegacyBot.calculate_prize_fund 3 = 5000 * (3 + 1) :=
  ⟨by decide, (prize_fund_legacy_closed_form 3).2.1 (by decide)⟩

/-- C5: the modular `calculate_prize_fund` (`src/src/utils.py`) satisfies
the recurrence with cap: value 0 at -1, `MONTHLY_AMOUNT` at 0, increases by
`PRIZE_FUND_INCREASE` each month while below `MAX_PRIZE_FUND`, and stays
flat at `MAX_PRIZE_FUND` once that cap is reached. -/
theorem prize_fund_capped_recurrence (n : Int) :
    calculate_prize_fund (-1) = 0 ∧
    calculate_prize_fund 0 = MONTHLY_AMOUNT ∧
    (1 ≤ n → calculate_prize_fund (n - 1) < MAX_PRIZE_FUND →
      calculate_prize_fund n =
        calculate_prize_fund (n - 1) + PRIZE_FUND_INCREASE) ∧
    (1 ≤ n → calculate_prize_fund (n - 1) = MAX_PRIZE_FUND →
      calculate_prize_fund n = MAX_PRIZE_FUND) := by
  unfold calculate_prize_fund MONTHLY_AMOUNT PRIZE_FUND_INCREASE MAX_PRIZE_FUND
  refine ⟨by norm_num, by norm_num, fun h1 h2 => ?_, fun h1 h2 => ?_⟩ <;>
    simp only [min_def] at h2 ⊢ <;> split_ifs at h2 ⊢ <;> omega

/-- C5 witness: the recurrence applied at n = 5 (below the cap) and at
n = 21 (at the cap). -/
theorem prize_fund_capped_recurrence_witness :
    (1 ≤ (5 : Int) ∧ calculate_prize_fund 4 < MAX_PRIZE_FUND ∧
      calculate_prize_fund 5 = calculate_prize_fund 4 + PRIZE_FUND_INCREASE) ∧
    (1 ≤ (21 : Int) ∧ calculate_prize_fund 20 = MAX_PRIZE_FUND ∧
      calculate_prize_fund 21 = MAX_PRIZE_FUND) :=
  ⟨⟨by decide, by decide,
     by have h := (prize_fund_capped_recurrence 5).2.2.1 (by decide) (by decide)
        simpa using h⟩,
   ⟨by decide, by decide,
     by have h := (prize_fund_capped_recurrence 21).2.2.2 (by decide) (by decide)
        simpa using h⟩⟩

/-- C1: `remove_admin` contract — an id outside the admin set yields
`false` with no mutation; when the admin set is exactly `[id]` (removal
would empty it) the call yields `false` with the admin set and its
persisted storage unchanged; otherwise the id is removed, the admin set is
persisted, and the call yields `true`. -/
theorem remove_admin_contract (s : AdminRegistry) (x : Int) :
    (x ∉ s.admins → remove_admin s x = (false, s)) ∧
    (s.admins = [x] → remove_admin s x = (false, s)) ∧
    (x ∈ s.admins → s.admins.filter (fun y => y ≠ x) ≠ [] →
      (remove_admin s x).1 = true ∧
      (remove_admin s x).2.admins = s.admins.filter (fun y => y ≠ x) ∧
      (remove_admin s x).2.storage = s.admins.filter (fun y => y ≠ x)) := by
  refine ⟨fun h => ?_, fun h => ?_, fun h1 h2 => ?_⟩
  · simp [remove_admin, h]
  · simp [remove_admin, h]
  · simp only [remove_admin, if_pos h1, if_neg h2]
    exact ⟨trivial, trivial, trivial⟩

/-- C1 witness: the contract applied to the registry with admins [1, 2]
removing 2 (succeeds), and to the single-admin registry [5] removing 5
(rejected, unchanged). -/
theorem remove_admin_contract_witness :
    (((2 : Int) ∈ [(1 : Int), 2] ∧
        [(1 : Int), 2].filter (fun y => y ≠ 2) ≠ []) ∧
      (remove_admin ⟨[1, 2], [1, 2]⟩ 2).1 = true ∧
      (remove_admin ⟨[1, 2], [1, 2]⟩ 2).2.admins = [1] ∧
      (remove_admin ⟨[1, 2], [1, 2]⟩ 2).2.storage = [1]) ∧
    ((⟨[5], [5]⟩ : AdminRegistry).admins = [(5 : Int)] ∧
      remove_admin ⟨[5], [5]⟩ 5 = (false, ⟨[5], [5]⟩)) := by
  refine ⟨⟨⟨by decide, by decide⟩, ?_⟩, ⟨by decide, ?_⟩⟩
  · have h := (remove_admin_contract ⟨[1, 2], [1, 2]⟩ 2).2.2 (by decide) (by decide)
    exact ⟨h.1, by rw [h.2.1]; decide, by rw [h.2.2]; decide⟩
  · exact (remove_admin_contract ⟨[5], [5]⟩ 5).2.1 (by decide)

/-- C8: for an id not yet registered, the first `add_user` call returns
`true`, appends the id, and performs exactly one storage write; the second
call with the same id returns `false`, leaves the user list unchanged, and
performs no further storage write. -/
theorem add_user_double_call (s : UserRegistry) (x : Int) (hx : x ∉ s.users) :
    (add_user s x).1 = true ∧
    (add_user s x).2.users = s.users ++ [x] ∧
    (add_user s x).2.storage = s.users ++ [x] ∧
    (add_user s x).2.writes = s.writes + 1 ∧
    add_user (add_user s x).2 x = (false, (add_user s x).2) := by
  have h1 : add_user s x =
      (true, ⟨s.users ++ [x], s.users ++ [x], s.writes + 1⟩) := by
    simp [add_user, hx]
  have hmem : x ∈ s.users ++ [x] := by simp
  refine ⟨by rw [h1], by rw [h1], by rw [h1], by rw [h1], ?_⟩
  rw [h1]
  simp [add_user, hmem]

/-- C8 witness: the double-call contract applied to the empty registry and
id 7. -/
theorem add_user_double_call_witness :
    (7 : Int) ∉ (UserRegistry.mk [] [] 0).users ∧
    (add_user ⟨[], [], 0⟩ 7).1 = true ∧
    add_user (add_user ⟨[], [], 0⟩ 7).2 7 = (false, (add_user ⟨[], [], 0⟩ 7).2) :=
  ⟨by decide, (add_user_double_call ⟨[], [], 0⟩ 7 (by decide)).1,
    (add_user_double_call ⟨[], [], 0⟩ 7 (by decide)).2.2.2.2⟩

/-- C9: a raw quote list that is empty yields an empty QuoteSet, and
`get_random_quote` on the empty QuoteSet returns the hard-coded fallback
string for every requester key and every random pick. -/
theorem empty_quoteset_fallback (user_id : String) (choice : Nat) :
    load_quotes [] = [] ∧
    get_random_quote (load_quotes []) user_id choice = FALLBACK_QUOTE := by
  constructor
  · simp [load_quotes]
  · simp [load_quotes, get_random_quote]

/-- C4 counterexample: now = 2025-06-23 22:00 is on the notification day
after the scheduled time; the computed next increase date is 2025-06-23
21:58, which is not strictly later than now, contradicting the claimed
strict-future property. -/
theorem next_increase_not_future_counterexample :
    dtLe START_DATE ⟨2025, 6, 23, 22, 0⟩ ∧
    validDate ⟨2025, 6, 23, 22, 0⟩ ∧
    nextIncreaseDate ⟨2025, 6, 23, 22, 0⟩ = ⟨2025, 6, 23, 21, 58⟩ ∧
    ¬ dtLt ⟨2025, 6, 23, 22, 0⟩ (nextIncreaseDate ⟨2025, 6, 23, 22, 0⟩) := by
  decide

/-- C4 (amended): the computed next increase date is this month's
occurrence of (NOTIFICATION_DAY, NOTIFICATION_HOUR, NOTIFICATION_MINUTE)
when now.day ≤ NOTIFICATION_DAY and next month's occurrence otherwise
(December rolling over to January of the next year); it is strictly later
than now whenever now is strictly before this month's occurrence or past
the notification day — but not when now falls on the notification day at or
after the scheduled time, where the computed date lies at or before now. -/
theorem next_increase_date_cases (now : PyDateTime) (hv : validDate now)
    (hs : dtLe START_DATE now) :
    (now.day ≤ NOTIFICATION_DAY →
      nextIncreaseDate now =
        ⟨now.year, now.month, NOTIFICATION_DAY, NOTIFICATION_HOUR,
          NOTIFICATION_MINUTE⟩) ∧
    (NOTIFICATION_DAY < now.day → now.month = 12 →
      nextIncreaseDate now =
        ⟨now.year + 1, 1, NOTIFICATION_DAY, NOTIFICATION_HOUR,
          NOTIFICATION_MINUTE⟩) ∧
    (NOTIFICATION_DAY < now.day → now.month ≠ 12 →
      nextIncreaseDate now =
        ⟨now.year, now.month + 1, NOTIFICATION_DAY, NOTIFICATION_HOUR,
          NOTIFICATION_MINUTE⟩) ∧
    ((now.day < NOTIFICATION_DAY ∨ NOTIFICATION_DAY < now.day ∨
        (now.day = NOTIFICATION_DAY ∧ (now.hour < NOTIFICATION_HOUR ∨
          (now.hour = NOTIFICATION_HOUR ∧
            now.minute < NOTIFICATION_MINUTE)))) →
      dtLt now (nextIncreaseDate now)) := by
  unfold nextIncreaseDate dtLt NOTIFICATION_DAY NOTIFICATION_HOUR
    NOTIFICATION_MINUTE
  refine ⟨fun h => ?_, fun h1 h2 => ?_, fun h1 h2 => ?_, fun h => ?_⟩ <;>
    split_ifs <;> simp_all <;> omega

/-- C4 witness: the case analysis applied at now = 2025-06-10 12:00
(before the notification day), where the computed date is strictly later
than now. -/
theorem next_increase_date_cases_witness :
    validDate ⟨2025, 6, 10, 12, 0⟩ ∧ dtLe START_DATE ⟨2025, 6, 10, 12, 0⟩ ∧
    dtLt ⟨2025, 6, 10, 12, 0⟩ (nextIncreaseDate ⟨2025, 6, 10, 12, 0⟩) :=
  ⟨by decide, by decide,
    (next_increase_date_cases ⟨2025, 6, 10, 12, 0⟩ (by decide)
      (by decide)).2.2.2 (Or.inl (by decide))⟩

/-- C6: one dispatch run attempts a send for every registered user — the
attempt list has exactly one entry per user, and the i-th attempt sends the
single status text to the i-th user, regardless of whether any other send
failed (failures are recorded, never short-circuit the loop). -/
theorem dispatch_best_effort (users : List Int)
    (send : Int → String → SendResult) (statusText : String) :
    (send_monthly_notification statusText users send).length = users.length ∧
    ∀ i, i < users.length →
      (send_monthly_notification statusText users send).getD i
          (0, SendResult.ok) =
        (users.getD i 0, send (users.getD i 0) statusText) := by
  constructor
  · simp [send_monthly_notification, send_notifications_to_users]
  · intro i hi
    unfold send_monthly_notification send_notifications_to_users
    exact sendmap_getD users (fun u => (u, send u statusText)) i hi

/-- C6 witness: users [1, 2, 3] with a send function failing on id 2 — the
attempted delivery count is 3 and the second attempt is the recorded
failure for user 2. -/
theorem dispatch_best_effort_witness :
    (send_monthly_notification "status" [1, 2, 3] sendFailsFor2).length = 3 ∧
    1 < ([1, 2, 3] : List Int).length ∧
    (send_monthly_notification "status" [1, 2, 3] sendFailsFor2).getD 1
        (0, SendResult.ok) = (2, SendResult.failed) := by
  refine ⟨?_, by decide, ?_⟩
  · have h := (dispatch_best_effort [1, 2, 3] sendFailsFor2 "status").1
    simpa using h
  · have h := (dispatch_best_effort [1, 2, 3] sendFailsFor2 "status").2 1
      (by decide)
    simpa [sendFailsFor2] using h

/-- C7: initializing the quote list from a raw list of length `L` with
`0 < L < 240` produces exactly 240 entries whose i-th entry is
`raw[i % L]`; a raw list with `L ≥ 240` is used unchanged; an empty raw
list stays empty. -/
theorem quote_padding (raw : List String) :
    (raw = [] → load_quotes raw = []) ∧
    (240 ≤ raw.length → load_quotes raw = raw) ∧
    (raw ≠ [] → raw.length < 240 →
      (load_quotes raw).length = 240 ∧
      ∀ i, i < 240 →
        (load_quotes raw).getD i "" = raw.getD (i % raw.length) "") := by
  refine ⟨fun h => ?_, fun h => ?_, fun h1 h2 => ?_⟩
  · subst h
    simp [load_quotes]
  · unfold load_quotes
    rw [if_neg (by omega)]
  · exact ⟨load_quotes_short_length raw h1 h2,
      fun i hi => load_quotes_short_getD raw h1 h2 i hi⟩

/-- C7 witness: the padding contract applied to the raw list
["a", "b", "c"] — 240 entries, entry 4 is "b". -/
theorem quote_padding_witness :
    (["a", "b", "c"] : List String) ≠ [] ∧
    (["a", "b", "c"] : List String).length < 240 ∧
    (load_quotes ["a", "b", "c"]).length = 240 ∧
    (load_quotes ["a", "b", "c"]).getD 4 "" = "b" := by
  have h := (quote_padding ["a", "b", "c"]).2.2 (by decide) (by decide)
  refine ⟨by decide, by decide, h.1, ?_⟩
  rw [h.2 4 (by decide)]
  decide

/-- C10: with a quote file holding a single distinct (nonempty) quote
string and fewer than 240 entries, the legacy pipeline pads the list to
240 identical entries, which bypasses the length-at-most-1 fallback guard;
the first `get_random_quote` call for a requester returns that quote and
records it as the requester's last quote, and the second call filters out
every entry and hits `random.choice` on an empty list — the uncaught
`IndexError`, modelled as `none`. -/
theorem single_quote_norepeat_indexerror (raw : List String) (q user : String)
    (c1 c2 : Nat) (hne : raw ≠ []) (hlen : raw.length < 240)
    (hall : ∀ s ∈ raw, s = q) (hq : q ≠ "") :
    (load_quotes raw).length = 240 ∧
    LegacyBot.get_random_quote (load_quotes raw) [] user c1 =
      some (q, [(user, q)]) ∧
    LegacyBot.get_random_quote (load_quotes raw) [(user, q)] user c2 =
      none := by
  have hlen240 := load_quotes_short_length raw hne hlen
  have hallQ := load_quotes_all_eq raw q hall hne hlen
  have hQne : load_quotes raw ≠ [] := by
    intro hnil
    rw [hnil] at hlen240
    simp at hlen240
  refine ⟨hlen240, ?_, ?_⟩
  · simp only [LegacyBot.get_random_quote]
    rw [if_neg (by omega)]
    have hlast : dictGet [] user = "" := rfl
    rw [hlast]
    have hfil : (load_quotes raw).filter (fun s => s ≠ "") = load_quotes raw := by
      rw [List.filter_eq_self]
      intro a ha
      simp [hallQ a ha, hq]
    rw [hfil, if_neg hQne]
    have hpicklt : c1 % (load_quotes raw).length < (load_quotes raw).length :=
      Nat.mod_lt _ (by omega)
    have hpick : (load_quotes raw).getD (c1 % (load_quotes raw).length) "" = q :=
      hallQ _ (getD_mem_of_lt _ _ hpicklt)
    rw [hpick]
    rfl
  · simp only [LegacyBot.get_random_quote]
    rw [if_neg (by omega)]
    have hlast : dictGet [(user, q)] user = q := by
      simp [dictGet]
    rw [hlast]
    have hfil : (load_quotes raw).filter (fun s => s ≠ q) = [] := by
      rw [List.filter_eq_nil_iff]
      intro a ha
      simp [hallQ a ha]
    rw [hfil, if_pos rfl]

/-- C10 witness: the scenario applied to the one-quote file ["x"] — the
second call for the same requester yields the modelled `IndexError`. -/
theorem single_quote_norepeat_indexerror_witness :
    (["x"] : List String) ≠ [] ∧ (["x"] : List String).length < 240 ∧
    LegacyBot.get_random_quote (load_quotes ["x"]) [("global", "x")]
      "global" 0 = none :=
  ⟨by decide, by decide,
    (single_quote_norepeat_indexerror ["x"] "x" "global" 0 0 (by decide)
      (by decide) (by simp) (by decide)).2.2⟩
